import Mathlib

/-!
Verification of `pkg/sql/distsqlpb/data.go`: the wire-boundary data model of
the distributed SQL execution engine (ordering codec, expression envelope,
error envelope).

Modelling conventions:
* Go `int` is `Int` (no arithmetic in this file can overflow 64 bits, so no
  explicit wraparound is needed for `int`); Go `uint32` conversions are made
  explicit with reduction modulo `2^32`.
* A Go `panic` is an `Except.error` carrying the panic message; fallible
  conversions return `Except String _`.
* A nil-able Go pointer of type `*T` is `Option T`.
-/

set_option autoImplicit false

namespace distsqlpb

/-- `encoding.Direction`: the internal sort direction used by
`sqlbase.ColumnOrdering` (constants `encoding.Ascending` and
`encoding.Descending`). -/
inductive Direction where
  | Ascending
  | Descending
  deriving DecidableEq, Repr

/-- One entry of `sqlbase.ColumnOrdering`: a column index (Go `int`) together
with a sort direction. -/
structure ColumnOrderInfo where
  ColIdx : Int
  Direction : Direction
  deriving DecidableEq, Repr

/-- `sqlbase.ColumnOrdering`: the planner's internal ordering, an ordered list
of (column index, direction) pairs. -/
abbrev ColumnOrdering := List ColumnOrderInfo

/-- Wire value of the proto enum `Ordering_Column_Direction.ASC`. The proto
enum field is an integer on the wire, so unrecognized values are representable:
we model the direction field as `Int`. -/
def Ordering_Column_ASC : Int := 0

/-- Wire value of the proto enum `Ordering_Column_Direction.DESC`. -/
def Ordering_Column_DESC : Int := 1

/-- `Ordering_Column` (from data.proto): a wire ordering column, carrying a
`uint32` column index (a natural number kept below `2^32` by the producing
conversions) and a direction enum value. -/
structure Ordering_Column where
  ColIdx : Nat
  Direction : Int
  deriving DecidableEq, Repr

/-- `Ordering` (from data.proto): the wire ordering specification. -/
structure Ordering where
  Columns : List Ordering_Column
  deriving DecidableEq, Repr

/-- Go's `uint32(i)` conversion applied to an `int`: reduction modulo `2^32`
(two's-complement truncation). -/
def uint32of (i : Int) : Nat :=
  (i % (2 ^ 32)).toNat

/-- The message of the Go panic
`panic(fmt.Sprintf("column %d in sort ordering not available", c.ColIdx))`
raised by `ConvertToMappedSpecOrdering` on a `-1` remap entry. -/
def colNotAvailableMsg (i : Int) : String :=
  "column " ++ toString i ++ " in sort ordering not available"

/-- The message of the Go runtime panic raised by an out-of-range slice index
`planToStreamColMap[c.ColIdx]`. -/
def indexOutOfRangeMsg : String :=
  "runtime error: index out of range"

/-- Go slice indexing `m[i]` with an `int` index: the value at `i` when
`0 ≤ i < len(m)`, and the out-of-range runtime panic otherwise. -/
def goIndex (m : List Int) (i : Int) : Except String Int :=
  if 0 ≤ i then
    match m.get? i.toNat with
    | some v => Except.ok v
    | none => Except.error indexOutOfRangeMsg
  else Except.error indexOutOfRangeMsg

/-- The loop body of `ConvertToMappedSpecOrdering` for one column: look the
column index up in the remap when one is supplied (panicking on a `-1` entry
or an out-of-range index), truncate the resulting index to `uint32`, and map
the direction `encoding.Ascending ↦ ASC`, else `DESC`. -/
def convertOneColumn (planToStreamColMap : Option (List Int)) (c : ColumnOrderInfo) :
    Except String Ordering_Column :=
  match planToStreamColMap with
  | none =>
      Except.ok
        { ColIdx := uint32of c.ColIdx,
          Direction :=
            if c.Direction = Direction.Ascending then Ordering_Column_ASC
            else Ordering_Column_DESC }
  | some m =>
      match goIndex m c.ColIdx with
      | Except.error s => Except.error s
      | Except.ok colIdx =>
          if colIdx = -1 then
            Except.error (colNotAvailableMsg c.ColIdx)
          else
            Except.ok
              { ColIdx := uint32of colIdx,
                Direction :=
                  if c.Direction = Direction.Ascending then Ordering_Column_ASC
                  else Ordering_Column_DESC }

/-- The loop of `ConvertToMappedSpecOrdering`, processing the columns in order
and propagating the first panic. -/
def convertColumns (planToStreamColMap : Option (List Int)) :
    ColumnOrdering → Except String (List Ordering_Column)
  | [] => Except.ok []
  | c :: rest =>
      match convertOneColumn planToStreamColMap c with
      | Except.error s => Except.error s
      | Except.ok oc =>
          match convertColumns planToStreamColMap rest with
          | Except.error s => Except.error s
          | Except.ok ocs => Except.ok (oc :: ocs)

/-- `ConvertToMappedSpecOrdering`: converts a `sqlbase.ColumnOrdering` to a
wire `Ordering`, remapping each column index through `planToStreamColMap` when
it is non-nil. -/
def ConvertToMappedSpecOrdering (columnOrdering : ColumnOrdering)
    (planToStreamColMap : Option (List Int)) : Except String Ordering :=
  match convertColumns planToStreamColMap columnOrdering with
  | Except.error s => Except.error s
  | Except.ok cols => Except.ok { Columns := cols }

/-- `ConvertToSpecOrdering`: converts a `sqlbase.ColumnOrdering` to a wire
`Ordering`; defined in the source as the mapped conversion with a nil remap. -/
def ConvertToSpecOrdering (columnOrdering : ColumnOrdering) : Except String Ordering :=
  ConvertToMappedSpecOrdering columnOrdering none

/-- `ConvertToColumnOrdering`: converts a wire `Ordering` to a
`sqlbase.ColumnOrdering`; copies each index through `int(c.ColIdx)` and maps
the `ASC` enum value to `Ascending`, any other value to `Descending`. -/
def ConvertToColumnOrdering (specOrdering : Ordering) : ColumnOrdering :=
  specOrdering.Columns.map fun c =>
    { ColIdx := (c.ColIdx : Int),
      Direction :=
        if c.Direction = Ordering_Column_ASC then Direction.Ascending
        else Direction.Descending }

/-- Modelled from the spec: `pgerror.Error` (the GenericDatabaseError payload,
`pkg/sql/pgwire/pgerror`, not under src/) is a code-classified error carrying a
stable error code and a human-readable message; its `Error()` method returns
the message. -/
structure PGError where
  Code : String
  Message : String
  deriving DecidableEq, Repr

/-- Modelled from the spec: `pgerror.CodeInternalError` (not under src/) is the
fixed "internal error" code used when classifying unrecognized failures. -/
def CodeInternalError : String := "internal"

/-- Modelled from the spec: `pgerror.NewError` (not under src/) builds a
database error from a code and a message. -/
def pgNewError (code : String) (msg : String) : PGError :=
  { Code := code, Message := msg }

/-- Modelled from the spec: `roachpb.UnhandledRetryableError` (not under src/)
is the retryable-transaction failure, carried as an opaque payload; only its
`Error()` message is relevant here. -/
structure UnhandledRetryableError where
  Message : String
  deriving DecidableEq, Repr

/-- Modelled from the spec: a Go `error` value as seen by this module. It is
either a database error, a retryable-transaction error, some other error, or
an error wrapping a cause (the cause chain followed by `errors.Cause`). -/
inductive GoError where
  | pgError (e : PGError)
  | retryableTxn (e : UnhandledRetryableError)
  | other (msg : String)
  | wrap (msg : String) (cause : GoError)
  deriving DecidableEq, Repr

/-- Modelled from the spec: `errors.Cause` follows the wrap chain to the
innermost error. -/
def errCause : GoError → GoError
  | GoError.wrap _ c => errCause c
  | e => e

/-- The Go `err.Error()` message of a `GoError`. -/
def errMessage : GoError → String
  | GoError.pgError e => e.Message
  | GoError.retryableTxn e => e.Message
  | GoError.other msg => msg
  | GoError.wrap msg c => msg ++ ": " ++ errMessage c

/-- Modelled from the spec: `pgerror.GetPGCause` (not under src/) reports the
innermost cause of the error when that cause is a database error. -/
def GetPGCause (err : GoError) : Option PGError :=
  match errCause err with
  | GoError.pgError e => some e
  | _ => none

/-- The Go type assertion `err.(*roachpb.UnhandledRetryableError)`: a direct
shape check on the error itself, with no unwrapping of causes. -/
def asUnhandledRetryable : GoError → Option UnhandledRetryableError
  | GoError.retryableTxn e => some e
  | _ => none

/-- The `Detail` field of the `Error` envelope: a tagged union (`isError_Detail`
in Go). The Go field is an interface value, so besides the two generated
wrappers `Error_PGError` and `Error_RetryableTxnError` it can also be nil or
hold a foreign detail kind; the last two constructors model those states. -/
inductive ErrorDetailUnion where
  | Error_PGError (PGError : PGError)
  | Error_RetryableTxnError (RetryableTxnError : UnhandledRetryableError)
  | nilDetail
  | unknownDetail (descr : String)
  deriving DecidableEq, Repr

/-- The `Error` proto envelope: a wire-safe container for a classified failure.
A Go `*Error` is `Option Error`. -/
structure Error where
  Detail : ErrorDetailUnion
  deriving DecidableEq, Repr

/-- `NewError`: classifies an arbitrary error into an envelope, in priority
order: identifiable database-error cause first, then the retryable-transaction
shape, then the internal-error fallback. Always returns a non-nil envelope. -/
def NewError (err : GoError) : Error :=
  match GetPGCause err with
  | some pgErr => { Detail := ErrorDetailUnion.Error_PGError pgErr }
  | none =>
      match asUnhandledRetryable err with
      | some retryErr => { Detail := ErrorDetailUnion.Error_RetryableTxnError retryErr }
      | none =>
          { Detail :=
              ErrorDetailUnion.Error_PGError
                (pgNewError CodeInternalError (errMessage err)) }

/-- `(*Error).ErrorDetail`: returns the payload as a Go error; `Except.ok none`
is the Go nil error (nil receiver), and the default arm of the type switch
(nil or foreign detail kinds) is the panic
`panic(fmt.Sprintf("bad error detail: %+v", t))`. -/
def ErrorDetail : Option Error → Except String (Option GoError)
  | none => Except.ok none
  | some e =>
      match e.Detail with
      | ErrorDetailUnion.Error_PGError t => Except.ok (some (GoError.pgError t))
      | ErrorDetailUnion.Error_RetryableTxnError t =>
          Except.ok (some (GoError.retryableTxn t))
      | ErrorDetailUnion.nilDetail => Except.error "bad error detail: <nil>"
      | ErrorDetailUnion.unknownDetail d => Except.error ("bad error detail: " ++ d)

/-- `(*Error).String`: renders the detail's message when a detail is present
and the sentinel `"<nil>"` otherwise; a panic in `ErrorDetail` propagates. -/
def ErrorString (e : Option Error) : Except String String :=
  match ErrorDetail e with
  | Except.ok (some err) => Except.ok (errMessage err)
  | Except.ok none => Except.ok "<nil>"
  | Except.error s => Except.error s

/-- Modelled from the spec: `tree.TypedExpr` (`pkg/sql/sem/tree`, not under
src/) is an opaque in-process typed expression handle; formatting it through a
`FmtCheckEquivalence` context yields a canonical string on which semantically
equivalent expressions agree. The canonical rendering is the handle's only
observable here. -/
structure TypedExpr where
  canonical : String
  deriving DecidableEq, Repr

/-- Modelled from the spec: formatting a typed expression through a
`tree.FmtCheckEquivalence` context (`NewFmtCtx` / `FormatNode` /
`CloseAndGetString`, not under src/) produces its canonical string. -/
def formatCheckEquivalence (t : TypedExpr) : String :=
  t.canonical

/-- `Expression`: the dual-representation SQL expression, with a wire-safe
textual form `Expr` and an optional unserialized local form `LocalExpr`. -/
structure Expression where
  Version : String
  Expr : String
  LocalExpr : Option TypedExpr
  deriving DecidableEq, Repr

/-- `(*Expression).Empty`: true iff the expression has neither an `Expr` nor a
`LocalExpr`. -/
def Expression.Empty (e : Expression) : Bool :=
  e.Expr == "" && e.LocalExpr.isNone

/-- `Expression.String`: renders the local form through the
equivalence-canonicalizing context when present, else the textual form when
non-empty, else the sentinel `"none"`. -/
def ExpressionString (e : Expression) : String :=
  match e.LocalExpr with
  | some le => formatCheckEquivalence le
  | none => if e.Expr != "" then e.Expr else "none"

/-! ### Theorems -/

/-- Every envelope built by `NewError` carries either a database-error detail
or a retryable-transaction detail. -/
theorem NewError_detail_shape (e : GoError) :
    (∃ pe, NewError e = { Detail := ErrorDetailUnion.Error_PGError pe }) ∨
    (∃ re, NewError e = { Detail := ErrorDetailUnion.Error_RetryableTxnError re }) := by
  unfold NewError
  cases GetPGCause e with
  | some pgErr => exact Or.inl ⟨pgErr, rfl⟩
  | none =>
      cases asUnhandledRetryable e with
      | some retryErr => exact Or.inr ⟨retryErr, rfl⟩
      | none => exact Or.inl ⟨_, rfl⟩

/-- C1: for every error `e`, `NewError e` succeeds with a non-nil envelope and
`ErrorDetail` of that envelope returns a non-nil typed error; when `e` has no
recognizable shape (no database-error cause, not a retryable-transaction
error), the envelope is a database error with the fixed internal code and
`e`'s message. -/
theorem NewError_total_and_fallback (e : GoError) :
    (∃ d, ErrorDetail (some (NewError e)) = Except.ok (some d)) ∧
    (GetPGCause e = none → asUnhandledRetryable e = none →
      NewError e =
        { Detail :=
            ErrorDetailUnion.Error_PGError
              (pgNewError CodeInternalError (errMessage e)) }) := by
  constructor
  · rcases NewError_detail_shape e with ⟨pe, hpe⟩ | ⟨re, hre⟩
    · exact ⟨GoError.pgError pe, by rw [hpe]; rfl⟩
    · exact ⟨GoError.retryableTxn re, by rw [hre]; rfl⟩
  · intro hpg hr
    unfold NewError
    rw [hpg, hr]

/-- Witness for C1 at the shapeless error `other "boom"`. -/
theorem NewError_total_and_fallback_witness :
    NewError (GoError.other "boom") =
      { Detail := ErrorDetailUnion.Error_PGError { Code := "internal", Message := "boom" } } ∧
    (∃ d, ErrorDetail (some (NewError (GoError.other "boom"))) = Except.ok (some d)) :=
  ⟨(NewError_total_and_fallback (GoError.other "boom")).2 rfl rfl,
   (NewError_total_and_fallback (GoError.other "boom")).1⟩

/-- C2: `NewError` classifies in priority order: an identifiable database-error
cause wins and is carried unchanged (the detail of the result is exactly that
cause), the retryable-transaction shape is checked only when there is no such
cause, and the internal-error fallback only when neither shape matches. -/
theorem NewError_priority (e : GoError) :
    (∀ pe, GetPGCause e = some pe →
      NewError e = { Detail := ErrorDetailUnion.Error_PGError pe } ∧
      ErrorDetail (some (NewError e)) = Except.ok (some (GoError.pgError pe))) ∧
    (∀ re, GetPGCause e = none → asUnhandledRetryable e = some re →
      NewError e = { Detail := ErrorDetailUnion.Error_RetryableTxnError re }) ∧
    (GetPGCause e = none → asUnhandledRetryable e = none →
      NewError e =
        { Detail :=
            ErrorDetailUnion.Error_PGError
              (pgNewError CodeInternalError (errMessage e)) }) := by
  refine ⟨fun pe hpg => ?_, fun re hpg hr => ?_, fun hpg hr => ?_⟩
  · have h : NewError e = { Detail := ErrorDetailUnion.Error_PGError pe } := by
      unfold NewError
      rw [hpg]
    exact ⟨h, by rw [h]; rfl⟩
  · unfold NewError
    rw [hpg, hr]
  · unfold NewError
    rw [hpg, hr]

/-- Witness for C2: a wrapped database error keeps its cause (even though the
wrapper is not itself a database error), a bare retryable error is wrapped as
retryable, and a shapeless error falls back to the internal code. -/
theorem NewError_priority_witness :
    NewError (GoError.wrap "ctx" (GoError.pgError { Code := "42P01", Message := "missing" })) =
      { Detail := ErrorDetailUnion.Error_PGError { Code := "42P01", Message := "missing" } } ∧
    NewError (GoError.retryableTxn { Message := "retry" }) =
      { Detail := ErrorDetailUnion.Error_RetryableTxnError { Message := "retry" } } ∧
    NewError (GoError.other "x") =
      { Detail := ErrorDetailUnion.Error_PGError { Code := "internal", Message := "x" } } :=
  ⟨((NewError_priority
      (GoError.wrap "ctx" (GoError.pgError { Code := "42P01", Message := "missing" }))).1
      { Code := "42P01", Message := "missing" } rfl).1,
   (NewError_priority (GoError.retryableTxn { Message := "retry" })).2.1
      { Message := "retry" } rfl rfl,
   (NewError_priority (GoError.other "x")).2.2 rfl rfl⟩

/-- C5: `ErrorDetail` returns the Go nil error exactly on the nil envelope;
a database-error detail and a retryable detail are returned as the contained
typed errors; a nil or foreign detail kind panics instead of defaulting. -/
theorem ErrorDetail_cases :
    (∀ e : Option Error, ErrorDetail e = Except.ok none ↔ e = none) ∧
    (∀ pe, ErrorDetail (some { Detail := ErrorDetailUnion.Error_PGError pe }) =
      Except.ok (some (GoError.pgError pe))) ∧
    (∀ re, ErrorDetail (some { Detail := ErrorDetailUnion.Error_RetryableTxnError re }) =
      Except.ok (some (GoError.retryableTxn re))) ∧
    (∀ env : Error,
      (env.Detail = ErrorDetailUnion.nilDetail ∨
        ∃ d, env.Detail = ErrorDetailUnion.unknownDetail d) →
      ∃ msg, ErrorDetail (some env) = Except.error msg) := by
  refine ⟨fun e => ?_, fun pe => rfl, fun re => rfl, fun env h => ?_⟩
  · cases e with
    | none => simp [ErrorDetail]
    | some env =>
        cases henv : env.Detail <;>
          simp [ErrorDetail, henv]
  · rcases h with h | ⟨d, h⟩
    · exact ⟨"bad error detail: <nil>", by simp [ErrorDetail, h]⟩
    · exact ⟨"bad error detail: " ++ d, by simp [ErrorDetail, h]⟩

/-- Witness for C5 at an envelope with a nil detail field. -/
theorem ErrorDetail_cases_witness :
    ∃ msg, ErrorDetail (some { Detail := ErrorDetailUnion.nilDetail }) = Except.error msg :=
  ErrorDetail_cases.2.2.2 { Detail := ErrorDetailUnion.nilDetail } (Or.inl rfl)

/-- C6: `(*Error).String` returns the message of the detail when one is
present, and the sentinel `"<nil>"` on the nil envelope. -/
theorem ErrorString_spec :
    (∀ (env : Error) (d : GoError),
      ErrorDetail (some env) = Except.ok (some d) →
      ErrorString (some env) = Except.ok (errMessage d)) ∧
    ErrorString none = Except.ok "<nil>" := by
  refine ⟨fun env d h => ?_, rfl⟩
  unfold ErrorString
  rw [h]

/-- Witness for C6 at a database-error envelope. -/
theorem ErrorString_spec_witness :
    ErrorString (some { Detail := ErrorDetailUnion.Error_PGError { Code := "internal", Message := "boom" } }) =
      Except.ok "boom" :=
  ErrorString_spec.1 _ (GoError.pgError { Code := "internal", Message := "boom" }) rfl

/-- C7: `Expression.String` renders via the local form whenever it is present
(through the equivalence-canonicalizing formatter, ignoring the textual form),
else returns the textual form when non-empty, else the sentinel `"none"`. -/
theorem ExpressionString_spec :
    (∀ (e : Expression) (le : TypedExpr), e.LocalExpr = some le →
      ExpressionString e = formatCheckEquivalence le) ∧
    (∀ e : Expression, e.LocalExpr = none → e.Expr ≠ "" → ExpressionString e = e.Expr) ∧
    (∀ e : Expression, e.LocalExpr = none → e.Expr = "" → ExpressionString e = "none") := by
  refine ⟨fun e le h => ?_, fun e h hne => ?_, fun e h heq => ?_⟩
  · unfold ExpressionString
    rw [h]
  · unfold ExpressionString
    rw [h]
    simp [hne]
  · unfold ExpressionString
    rw [h]
    simp [heq]

/-- Witness for C7: with both forms set the local form wins; with only the
textual form set it is returned; the empty expression renders `"none"`. -/
theorem ExpressionString_spec_witness :
    ExpressionString { Version := "", Expr := "@1 + 2", LocalExpr := some { canonical := "canon" } } = "canon" ∧
    ExpressionString { Version := "", Expr := "@1 + 2", LocalExpr := none } = "@1 + 2" ∧
    ExpressionString { Version := "", Expr := "", LocalExpr := none } = "none" :=
  ⟨ExpressionString_spec.1 _ { canonical := "canon" } rfl,
   ExpressionString_spec.2.1 _ rfl (by decide),
   ExpressionString_spec.2.2 _ rfl rfl⟩

/-- C9: `Expression.Empty` is true exactly when the textual form is the empty
string and the local form is absent. -/
theorem Expression_Empty_iff (e : Expression) :
    Expression.Empty e = true ↔ (e.Expr = "" ∧ e.LocalExpr = none) := by
  simp [Expression.Empty, Option.isNone_iff_eq_none]

/-- C8: `ConvertToColumnOrdering` is total, preserves length and column order,
copies each column index, and decodes direction `ASC` as `Ascending` and every
other enum value as `Descending`. -/
theorem ConvertToColumnOrdering_spec (s : Ordering) :
    (ConvertToColumnOrdering s).length = s.Columns.length ∧
    (∀ (i : Nat) (c : Ordering_Column), s.Columns.get? i = some c →
      ∃ c' : ColumnOrderInfo, (ConvertToColumnOrdering s).get? i = some c' ∧
        c'.ColIdx = (c.ColIdx : Int) ∧
        (c'.Direction = Direction.Ascending ↔ c.Direction = Ordering_Column_ASC)) := by
  refine ⟨by simp [ConvertToColumnOrdering], fun i c h => ?_⟩
  refine ⟨{ ColIdx := (c.ColIdx : Int),
            Direction :=
              if c.Direction = Ordering_Column_ASC then Direction.Ascending
              else Direction.Descending }, ?_, rfl, ?_⟩
  · rw [List.get?_eq_getElem?] at h ⊢
    simp [ConvertToColumnOrdering, List.getElem?_map, h]
  · by_cases hdir : c.Direction = Ordering_Column_ASC <;>
      simp [hdir]

/-- Witness for C8 at a spec column with an unrecognized direction value `5`,
which decodes as `Descending`. -/
theorem ConvertToColumnOrdering_spec_witness :
    ∃ c' : ColumnOrderInfo,
      (ConvertToColumnOrdering { Columns := [{ ColIdx := 7, Direction := 5 }] }).get? 0 = some c' ∧
      c'.ColIdx = ((7 : Nat) : Int) ∧
      (c'.Direction = Direction.Ascending ↔ (5 : Int) = Ordering_Column_ASC) :=
  (ConvertToColumnOrdering_spec { Columns := [{ ColIdx := 7, Direction := 5 }] }).2 0
    { ColIdx := 7, Direction := 5 } rfl

/-! ### Ordering codec lemmas -/

/-- In-range Go slice indexing returns the element (stated via `getD`). -/
theorem goIndex_ok (m : List Int) (i : Int) (h0 : 0 ≤ i) (h1 : i.toNat < m.length) :
    goIndex m i = Except.ok (m.getD i.toNat 0) := by
  unfold goIndex
  rw [if_pos h0]
  cases hq : m.get? i.toNat with
  | none =>
      exact absurd h1 (by simpa using Nat.not_lt.mpr (List.get?_eq_none.mp hq))
  | some v =>
      rw [List.getD_eq_getD_get?, hq]
      rfl

/-- One-column conversion with an in-range remap entry different from `-1`
succeeds with the `uint32`-truncated remapped index. -/
theorem convertOneColumn_some_ok (m : List Int) (c : ColumnOrderInfo)
    (h0 : 0 ≤ c.ColIdx) (h1 : c.ColIdx.toNat < m.length)
    (hne : m.getD c.ColIdx.toNat 0 ≠ -1) :
    convertOneColumn (some m) c =
      Except.ok
        { ColIdx := uint32of (m.getD c.ColIdx.toNat 0),
          Direction :=
            if c.Direction = Direction.Ascending then Ordering_Column_ASC
            else Ordering_Column_DESC } := by
  simp only [convertOneColumn, goIndex_ok m c.ColIdx h0 h1, if_neg hne]

/-- One-column conversion with an in-range remap entry equal to `-1` panics
with the "column not available" message. -/
theorem convertOneColumn_some_fatal (m : List Int) (c : ColumnOrderInfo)
    (h0 : 0 ≤ c.ColIdx) (h1 : c.ColIdx.toNat < m.length)
    (hm1 : m.getD c.ColIdx.toNat 0 = -1) :
    convertOneColumn (some m) c = Except.error (colNotAvailableMsg c.ColIdx) := by
  simp only [convertOneColumn, goIndex_ok m c.ColIdx h0 h1, if_pos hm1]

/-- The nil-remap conversion loop encodes every column by `uint32` truncation
of its index and the `Ascending ↦ ASC` / `Descending ↦ DESC` direction map. -/
theorem convertColumns_none_eq (o : ColumnOrdering) :
    convertColumns none o =
      Except.ok
        (o.map fun c =>
          { ColIdx := uint32of c.ColIdx,
            Direction :=
              if c.Direction = Direction.Ascending then Ordering_Column_ASC
              else Ordering_Column_DESC }) := by
  induction o with
  | nil => rfl
  | cons c rest ih => simp [convertColumns, convertOneColumn, ih]

/-- The remapped conversion loop, when every column's remap entry is in range
and differs from `-1`, encodes every column through the remap. -/
theorem convertColumns_some_eq (m : List Int) (o : ColumnOrdering) :
    (∀ c ∈ o, 0 ≤ c.ColIdx ∧ c.ColIdx.toNat < m.length ∧ m.getD c.ColIdx.toNat 0 ≠ -1) →
    convertColumns (some m) o =
      Except.ok
        (o.map fun c =>
          { ColIdx := uint32of (m.getD c.ColIdx.toNat 0),
            Direction :=
              if c.Direction = Direction.Ascending then Ordering_Column_ASC
              else Ordering_Column_DESC }) := by
  induction o with
  | nil => intro _; rfl
  | cons c rest ih =>
      intro h
      obtain ⟨h0, h1, hne⟩ := h c (List.mem_cons_self c rest)
      have hone := convertOneColumn_some_ok m c h0 h1 hne
      have hrest := ih fun a ha => h a (List.mem_cons_of_mem c ha)
      simp [convertColumns, hone, hrest]

/-- The remapped conversion loop, when every column's remap entry is in range
and some column's entry is `-1`, reaches the fatal condition. -/
theorem convertColumns_some_fatal (m : List Int) (o : ColumnOrdering) :
    (∀ c ∈ o, 0 ≤ c.ColIdx ∧ c.ColIdx.toNat < m.length) →
    (∃ c ∈ o, m.getD c.ColIdx.toNat 0 = -1) →
    ∃ msg, convertColumns (some m) o = Except.error msg := by
  induction o with
  | nil =>
      intro _ hex
      rcases hex with ⟨c, hc, _⟩
      exact absurd hc (List.not_mem_nil c)
  | cons c rest ih =>
      intro h hex
      obtain ⟨h0, h1⟩ := h c (List.mem_cons_self c rest)
      by_cases hc1 : m.getD c.ColIdx.toNat 0 = -1
      · exact ⟨colNotAvailableMsg c.ColIdx,
          by simp [convertColumns, convertOneColumn_some_fatal m c h0 h1 hc1]⟩
      · rcases hex with ⟨c', hc', hval⟩
        rcases List.mem_cons.mp hc' with rfl | hmem
        · exact absurd hval hc1
        · obtain ⟨msg, hrest⟩ :=
            ih (fun a ha => h a (List.mem_cons_of_mem c ha)) ⟨c', hmem, hval⟩
          exact ⟨msg,
            by simp [convertColumns, convertOneColumn_some_ok m c h0 h1 hc1, hrest]⟩

/-- Decoding inverts encoding on a column whose index fits in `uint32`. -/
theorem decode_encode_column (c : ColumnOrderInfo) (h0 : 0 ≤ c.ColIdx)
    (hlt : c.ColIdx < 2 ^ 32) :
    ColumnOrderInfo.mk ((uint32of c.ColIdx : Nat) : Int)
      (if (if c.Direction = Direction.Ascending then Ordering_Column_ASC
           else Ordering_Column_DESC) = Ordering_Column_ASC then Direction.Ascending
       else Direction.Descending) = c := by
  have hidx : ((uint32of c.ColIdx : Nat) : Int) = c.ColIdx := by
    unfold uint32of
    rw [Int.emod_eq_of_lt h0 hlt, Int.toNat_of_nonneg h0]
  cases c with
  | mk idx dir =>
      simp only at hidx
      cases dir <;> simp [hidx, Ordering_Column_ASC, Ordering_Column_DESC]

/-! ### C3, C4, C10 -/

/-- C3 holds only on `uint32`-representable indices: converting the internal
ordering with column index `-1` to the wire form truncates the index to
`4294967295`, so the round trip is not the identity there. -/
theorem roundTrip_counterexample :
    ConvertToSpecOrdering [{ ColIdx := -1, Direction := Direction.Ascending }] =
      Except.ok { Columns := [{ ColIdx := 4294967295, Direction := Ordering_Column_ASC }] } ∧
    ConvertToColumnOrdering
        { Columns := [{ ColIdx := 4294967295, Direction := Ordering_Column_ASC }] } ≠
      [{ ColIdx := -1, Direction := Direction.Ascending }] := by
  constructor
  · rfl
  · decide

/-- C3 (amended): for every internal ordering whose column indices lie in
`[0, 2^32)`, the codec round trip `ConvertToColumnOrdering ∘
ConvertToSpecOrdering` is the identity. -/
theorem roundTrip_identity (o : ColumnOrdering)
    (h : ∀ c ∈ o, 0 ≤ c.ColIdx ∧ c.ColIdx < 2 ^ 32) :
    ∃ s, ConvertToSpecOrdering o = Except.ok s ∧ ConvertToColumnOrdering s = o := by
  refine ⟨{ Columns := o.map fun c =>
      { ColIdx := uint32of c.ColIdx,
        Direction :=
          if c.Direction = Direction.Ascending then Ordering_Column_ASC
          else Ordering_Column_DESC } }, ?_, ?_⟩
  · unfold ConvertToSpecOrdering ConvertToMappedSpecOrdering
    rw [convertColumns_none_eq]
  · unfold ConvertToColumnOrdering
    rw [List.map_map]
    induction o with
    | nil => rfl
    | cons c rest ih =>
        obtain ⟨h0, hlt⟩ := h c (List.mem_cons_self c rest)
        have hrest := ih fun a ha => h a (List.mem_cons_of_mem c ha)
        simp only [List.map_cons, Function.comp, hrest, List.cons.injEq, and_true]
        exact decode_encode_column c h0 hlt

/-- Witness for C3 (amended) at a one-column descending ordering. -/
theorem roundTrip_identity_witness :
    ∃ s, ConvertToSpecOrdering [{ ColIdx := 3, Direction := Direction.Descending }] =
        Except.ok s ∧
      ConvertToColumnOrdering s = [{ ColIdx := 3, Direction := Direction.Descending }] :=
  roundTrip_identity [{ ColIdx := 3, Direction := Direction.Descending }] (by decide)

/-- C4 as stated fails on a remap entry that is negative but not `-1`: with
`o = [{col 0, Ascending}]` and `m = [-2]` the hypothesis of the claim holds
(`m[0]` is defined and not `-1`), the conversion succeeds, but the resulting
column index is the `uint32` wraparound `4294967294`, not `m` applied
pointwise (`-2`). -/
theorem remap_counterexample :
    ((0 : Int) ≤ 0 ∧ (0 : Int).toNat < [(-2 : Int)].length ∧
      [(-2 : Int)].getD (0 : Int).toNat 0 ≠ -1) ∧
    ConvertToMappedSpecOrdering [{ ColIdx := 0, Direction := Direction.Ascending }]
        (some [(-2 : Int)]) =
      Except.ok { Columns := [{ ColIdx := 4294967294, Direction := Ordering_Column_ASC }] } ∧
    ConvertToColumnOrdering
        { Columns := [{ ColIdx := 4294967294, Direction := Ordering_Column_ASC }] } ≠
      [{ ColIdx := -2, Direction := Direction.Ascending }] := by
  refine ⟨by decide, rfl, by decide⟩

/-- C4 (amended): with a remap whose entries touching `o` are defined and not
`-1`, the round trip through `ConvertToColumnOrdering` yields the `uint32`
truncation of `m` applied pointwise to `o`'s indices, with directions
preserved; if a relevant entry is `-1` the call is fatal; a nil remap behaves
exactly like `ConvertToSpecOrdering`. -/
theorem remap_spec :
    (∀ (o : ColumnOrdering) (m : List Int),
      (∀ c ∈ o, 0 ≤ c.ColIdx ∧ c.ColIdx.toNat < m.length ∧
        m.getD c.ColIdx.toNat 0 ≠ -1) →
      ∃ s, ConvertToMappedSpecOrdering o (some m) = Except.ok s ∧
        ConvertToColumnOrdering s =
          o.map fun c =>
            { ColIdx := ((uint32of (m.getD c.ColIdx.toNat 0) : Nat) : Int),
              Direction := c.Direction }) ∧
    (∀ (o : ColumnOrdering) (m : List Int),
      (∀ c ∈ o, 0 ≤ c.ColIdx ∧ c.ColIdx.toNat < m.length) →
      (∃ c ∈ o, m.getD c.ColIdx.toNat 0 = -1) →
      ∃ msg, ConvertToMappedSpecOrdering o (some m) = Except.error msg) ∧
    (∀ o : ColumnOrdering,
      ConvertToMappedSpecOrdering o none = ConvertToSpecOrdering o) := by
  refine ⟨fun o m h => ?_, fun o m h hex => ?_, fun o => rfl⟩
  · refine ⟨{ Columns := o.map fun c =>
        { ColIdx := uint32of (m.getD c.ColIdx.toNat 0),
          Direction :=
            if c.Direction = Direction.Ascending then Ordering_Column_ASC
            else Ordering_Column_DESC } }, ?_, ?_⟩
    · unfold ConvertToMappedSpecOrdering
      rw [convertColumns_some_eq m o h]
    · unfold ConvertToColumnOrdering
      rw [List.map_map]
      congr 1
      funext c
      cases hd : c.Direction <;>
        simp [Function.comp, Ordering_Column_ASC, Ordering_Column_DESC, hd]
  · obtain ⟨msg, hcc⟩ := convertColumns_some_fatal m o h hex
    exact ⟨msg, by simp [ConvertToMappedSpecOrdering, hcc]⟩

/-- Witness for C4 (amended): a remap entry `5` lands at index `5`, a remap
entry `-1` is fatal, and a nil remap agrees with `ConvertToSpecOrdering`. -/
theorem remap_spec_witness :
    (∃ s, ConvertToMappedSpecOrdering
          [{ ColIdx := 0, Direction := Direction.Descending }] (some [(5 : Int)]) =
        Except.ok s ∧
      ConvertToColumnOrdering s = [{ ColIdx := 5, Direction := Direction.Descending }]) ∧
    (∃ msg, ConvertToMappedSpecOrdering
          [{ ColIdx := 0, Direction := Direction.Descending }] (some [(-1 : Int)]) =
        Except.error msg) ∧
    ConvertToMappedSpecOrdering [{ ColIdx := 2, Direction := Direction.Ascending }] none =
      ConvertToSpecOrdering [{ ColIdx := 2, Direction := Direction.Ascending }] :=
  ⟨remap_spec.1 [{ ColIdx := 0, Direction := Direction.Descending }] [(5 : Int)] (by decide),
   remap_spec.2.1 [{ ColIdx := 0, Direction := Direction.Descending }] [(-1 : Int)]
     (by decide)
     ⟨{ ColIdx := 0, Direction := Direction.Descending }, by decide, rfl⟩,
   remap_spec.2.2 [{ ColIdx := 2, Direction := Direction.Ascending }]⟩

/-- C10: with a non-nil remap and a defined (in-range) entry for the column,
the fatal "column not available" condition holds exactly when the remapped
value is `-1`; for any remapped value `v` that is negative but not `-1` the
conversion succeeds and the emitted wire index is `v` reduced modulo `2^32`. -/
theorem remap_minus_one_only (c : ColumnOrderInfo) (m : List Int)
    (h0 : 0 ≤ c.ColIdx) (h1 : c.ColIdx.toNat < m.length) :
    (ConvertToMappedSpecOrdering [c] (some m) =
        Except.error (colNotAvailableMsg c.ColIdx) ↔
      m.getD c.ColIdx.toNat 0 = -1) ∧
    (∀ v : Int, m.getD c.ColIdx.toNat 0 = v → v < 0 → v ≠ -1 →
      ∃ d, ConvertToMappedSpecOrdering [c] (some m) =
        Except.ok { Columns := [{ ColIdx := (v % (2 ^ 32)).toNat, Direction := d }] }) := by
  constructor
  · constructor
    · intro heq
      by_contra hne
      have hone := convertOneColumn_some_ok m c h0 h1 hne
      simp [ConvertToMappedSpecOrdering, convertColumns, hone] at heq
    · intro hm1
      have hone := convertOneColumn_some_fatal m c h0 h1 hm1
      simp [ConvertToMappedSpecOrdering, convertColumns, hone]
  · intro v hv hneg hne
    have hne' : m.getD c.ColIdx.toNat 0 ≠ -1 := by rw [hv]; exact hne
    have hone := convertOneColumn_some_ok m c h0 h1 hne'
    rw [hv] at hone
    exact ⟨if c.Direction = Direction.Ascending then Ordering_Column_ASC
        else Ordering_Column_DESC,
      by simp [ConvertToMappedSpecOrdering, convertColumns, hone, uint32of]⟩

/-- Witness for C10: a `-1` entry is the fatal case, while a `-2` entry
succeeds with wire index `4294967294 = -2 mod 2^32`. -/
theorem remap_minus_one_only_witness :
    (ConvertToMappedSpecOrdering [{ ColIdx := 0, Direction := Direction.Ascending }]
          (some [(-1 : Int)]) =
        Except.error (colNotAvailableMsg 0) ↔
      [(-1 : Int)].getD (0 : Int).toNat 0 = -1) ∧
    (∃ d, ConvertToMappedSpecOrdering [{ ColIdx := 0, Direction := Direction.Ascending }]
          (some [(-2 : Int)]) =
        Except.ok { Columns := [{ ColIdx := 4294967294, Direction := d }] }) :=
  ⟨(remap_minus_one_only { ColIdx := 0, Direction := Direction.Ascending } [(-1 : Int)]
      (by decide) (by decide)).1,
   (remap_minus_one_only { ColIdx := 0, Direction := Direction.Ascending } [(-2 : Int)]
      (by decide) (by decide)).2 (-2) rfl (by decide) (by decide)⟩

end distsqlpb
